import Mathlib

/-!
Verification of the HB04 pendant driver (hb04.py).

The binary codec, protocol tables, event dispatch and facade operations of
the driver are embedded shallowly: Python floats are modelled as exact
rationals, Python ints as ℤ/ℕ, byte strings as lists of naturals, Python
exceptions as explicit outcome values.  Each definition is translated from
the corresponding function of the source file.
-/

namespace HB04

/-- Model of builtin round: round to nearest, ties to even
(CPython banker rounding, applied here to the exact rational value). -/
def pyRound (q : ℚ) : ℤ :=
  let f := ⌊q⌋
  if q - f < 1/2 then f
  else if 1/2 < q - f then f + 1
  else if f % 2 = 0 then f else f + 1

/-- Model of builtin int() on a real value: truncation toward zero. -/
def truncQ (q : ℚ) : ℤ :=
  if q < 0 then -⌊-q⌋ else ⌊q⌋

/-- Model of x.to_bytes(2, little-endian) for 0 ≤ x < 65536: two bytes,
least significant first. -/
def toBytes2LE (x : ℕ) : List ℕ := [x % 256, x / 256]

/-- Model of x.to_bytes(2, little-endian, signed=True): defined for
-32768 ≤ x ≤ 32767, otherwise the Python call raises OverflowError,
modelled as none. -/
def toBytes2LEsigned (x : ℤ) : Option (List ℕ) :=
  if x < -32768 ∨ 32767 < x then none
  else
    let u : ℕ := (x % 65536).toNat
    some [u % 256, u / 256]

/-- Axis.encode_float: 4 display bytes for a float axis value.
int_v = round(|v| * 10000); the integer part int_v / 10000 (float
division truncated, here exact) and the fractional part int_v % 10000 are
each masked to 16 bits; bit 15 of the fractional field is set when v < 0;
both fields are emitted little-endian. -/
def encode_float (v : ℚ) : List ℕ :=
  let int_v : ℕ := (pyRound (|v| * 10000)).toNat
  let int_part : ℕ := (int_v / 10000) % 65536
  let fract_part0 : ℕ := (int_v % 10000) % 65536
  let fract_part : ℕ := if v < 0 then fract_part0 ||| 0x8000 else fract_part0
  toBytes2LE int_part ++ toBytes2LE fract_part

/-- Axis.limit_num: clamp a value to the axis maximum.  On an integer
axis the value is first truncated to an integer and negatives are zeroed,
with maximum 0xFFFF; on a float axis the maximum is 9999.9999. -/
def limit_num (integerAxis : Bool) (x0 : ℚ) : ℚ :=
  let max_units : ℚ := if integerAxis then 65535 else 9999.9999
  let x : ℚ :=
    if integerAxis then
      let xi : ℤ := truncQ x0
      if xi < 0 then 0 else (xi : ℚ)
    else x0
  if x > max_units then max_units
  else if x < -max_units then -max_units
  else x

/-- Axis.encode_s16: v = int(limit_num(v)) encoded as a signed
little-endian 2-byte field; values outside the signed 16-bit range make
to_bytes raise OverflowError (none). -/
def encode_s16 (integerAxis : Bool) (v : ℚ) : Option (List ℕ) :=
  toBytes2LEsigned (truncQ (limit_num integerAxis v))

/-- sign_extend: an unsigned byte above 127 is reinterpreted as a
negative signed byte, (256 - value) * (-1). -/
def sign_extend (value : ℕ) : ℤ :=
  if value > 127 then (256 - (value : ℤ)) * (-1) else (value : ℤ)

/-- Modelled from the spec and claim C3: decoding of the 4-byte float
encoding.  Little-endian integer field, little-endian fractional field
with the high bit masked off, recombined as int + fract/10000, negated
when the high bit of the fractional field is set. -/
def decode_float_spec (bs : List ℕ) : ℚ :=
  match bs with
  | [b0, b1, b2, b3] =>
    let ip : ℕ := b0 + 256 * b1
    let fraw : ℕ := b2 + 256 * b3
    let fr : ℕ := fraw % 32768
    let mag : ℚ := (ip : ℚ) + (fr : ℚ) / 10000
    if 32768 ≤ fraw then -mag else mag
  | _ => 0

/-- The high (sign) bit of the fractional field of a 4-byte float
encoding. -/
def fract_sign_bit (bs : List ℕ) : Bool :=
  match bs with
  | [_, _, b2, b3] => if 32768 ≤ b2 + 256 * b3 then true else false
  | _ => false

/-- hb04.sendData, packetisation only: pad the frame with zeros to 42
bytes, then split into 6 packets of 8 bytes, each a 0x06 lead-in byte
followed by the next 7 payload bytes in frame order. -/
def sendData (data : List ℕ) : List (List ℕ) :=
  let padded := data ++ List.replicate (42 - data.length) 0
  (List.range 6).map (fun k => 6 :: ((padded.drop (7 * k)).take 7))

/-! Protocol tables (hb04.reset), as ordered association lists mirroring
the Python dict literals; all values inside one table are distinct, so the
inverse dict comprehensions are modelled by find? over the pairs. -/

/-- hb04.button_names: hex codes returned by button name. -/
def button_names : List (String × ℕ) :=
  [("", 0x0),
   ("reset", 0x17), ("stop", 0x16),
   ("go-zero", 0x01), ("start", 0x02), ("rewind", 0x03), ("probe-z", 0x04),
   ("spindle", 0x0C), ("half", 0x06), ("zero", 0x07), ("safe-z", 0x08),
   ("go-home", 0x09), ("macro1", 0x0A), ("macro2", 0x0B), ("macro3", 0x05),
   ("step", 0x0D), ("mode", 0x0E), ("macro6", 0x0F), ("macro7", 0x10)]

/-- hb04.multiplier_values: codes for the multiplier display. -/
def multiplier_values : List (String × ℕ) :=
  [("", 0x0),
   ("1", 0x1), ("5", 0x2),
   ("10", 0x3), ("20", 0x4), ("30", 0x5), ("40", 0x6), ("50", 0x7),
   ("100", 0x8), ("500", 0x9),
   ("1000", 0xA),
   ("P6", 0xB)]

/-- hb04.icon_values: codes for the display icons. -/
def icon_values : List (String × ℕ) :=
  [("no-icon", 0x0), ("go-zero", 0x10), ("no-touchoff", 0x20),
   ("go-home", 0x50), ("j-squiggily", 0x60)]

/-- hb04.units_values: codes for the mm and inch display icons. -/
def units_values : List (String × ℕ) :=
  [("mm", 0), ("inch", 0x80)]

/-- hb04.axis_select_switch: codes returned by the axis selector switch. -/
def axis_select_switch : List (String × ℕ) :=
  [("off", 0x00), ("x", 0x11), ("y", 0x12), ("z", 0x13),
   ("a", 0x18), ("spindle", 0x14), ("feed", 0x15)]

/-- Forward lookup in a table keyed by name (Python dict access). -/
def lookupTable (t : List (String × ℕ)) (k : String) : Option ℕ :=
  (t.find? (fun p => p.1 == k)).map (fun p => p.2)

/-- hb04.code2Button: inverse of button_names. -/
def code2Button (c : ℕ) : Option String :=
  (button_names.find? (fun p => p.2 == c)).map (fun p => p.1)

/-- hb04.code2Axis: inverse of axis_select_switch. -/
def code2Axis (c : ℕ) : Option String :=
  (axis_select_switch.find? (fun p => p.2 == c)).map (fun p => p.1)

/-- The decoded event dict passed to the registered handler. -/
structure USBEvent where
  button : String
  button2 : String
  axis : String
  increment : ℤ
  deriving DecidableEq, Repr

/-- What happened to the registered handler during one inbound report. -/
inductive HandlerStep
  | notInvoked
  | invokedOk (e : USBEvent)
  | invokedRaised (e : USBEvent)
  deriving DecidableEq, Repr

/-- hb04.newUSBEvent: process one inbound USB report.  A report of length
other than 6 fails the assert and the KeyError of an unmapped axis-switch
byte escapes too (Except.error); both propagate to the caller.  The
handler dispatch sits inside an inner try whose bare except swallows
everything: an unmapped button1/button2 byte (KeyError while building the
event dict, before the handler is called) and an exception raised by the
handler itself are both silently discarded.  The handler is modelled by a
function telling whether it raises on a given event; none models no
registered handler (a falsy machine_event_handler skips dispatch). -/
def newUSBEvent (handler : Option (USBEvent → Bool)) (data : List ℕ) :
    Except String (String × HandlerStep) :=
  if data.length ≠ 6 then Except.error "AssertionError"
  else
    match code2Axis (data.getD 3 0) with
    | none => Except.error "KeyError"
    | some ax =>
      Except.ok (ax,
        match handler with
        | none => HandlerStep.notInvoked
        | some raises =>
          match code2Button (data.getD 1 0), code2Button (data.getD 2 0) with
          | some b1, some b2 =>
            let e : USBEvent := ⟨b1, b2, ax, sign_extend (data.getD 4 0)⟩
            if raises e then HandlerStep.invokedRaised e else HandlerStep.invokedOk e
          | _, _ => HandlerStep.notInvoked)

/-- Outcome of one successful read iteration of hb04.receiveUSBEvents:
the call to newUSBEvent sits in a try whose except invokes fatal, so an
exception escaping newUSBEvent reaches the fatal path; otherwise the loop
continues with the new axis-switch position and the handler outcome. -/
inductive ReceiveOutcome
  | fatalCalled
  | continued (axis_switch : String) (handler : HandlerStep)
  deriving DecidableEq, Repr

/-- One iteration of the receive loop body after a successful read. -/
def receiveStep (handler : Option (USBEvent → Bool)) (data : List ℕ) : ReceiveOutcome :=
  match newUSBEvent handler data with
  | Except.error _ => ReceiveOutcome.fatalCalled
  | Except.ok (ax, hs) => ReceiveOutcome.continued ax hs

/-- The Axis entity: name, two coordinates, display mode. -/
structure Axis where
  name : String
  work_coordinate : ℚ
  machine_coordinate : ℚ
  integerAxis : Bool
  deriving DecidableEq, Repr

/-- Axis construction (Axis.reset then the constructor arguments). -/
def Axis.make (name : String) (integerAxis : Bool) : Axis :=
  ⟨name, 0, 0, integerAxis⟩

/-- The mutable driver state touched by the facade calls under study. -/
structure HB04State where
  axis_list : List (String × Axis)
  icon : ℕ
  units : ℕ
  multiplier_code : ℕ
  axis_switch : String
  running : Bool
  disconnecting : Bool
  reattach : Bool
  reconnecting : Bool
  deriving DecidableEq, Repr

/-- hb04.reset: the state built at construction — four float axes, four
integer axes, power-up display attributes. -/
def resetState : HB04State where
  axis_list :=
    [("x", Axis.make "x" false), ("y", Axis.make "y" false),
     ("z", Axis.make "z" false), ("a", Axis.make "a" false),
     ("feed", Axis.make "feed" true), ("feed-actual", Axis.make "feed-actual" true),
     ("spindle", Axis.make "spindle" true), ("spindle-actual", Axis.make "spindle-actual" true)]
  icon := 0
  units := 0
  multiplier_code := 1
  axis_switch := "off"
  running := false
  disconnecting := false
  reattach := false
  reconnecting := false

/-- hb04.disconnect, state effects: clears running, sets disconnecting
(the kernel-driver reattach attempt touches only the USB stack). -/
def disconnect (s : HB04State) : HB04State :=
  { s with running := false, disconnecting := true }

/-- Dict lookup of an axis by name. -/
def lookupAxis (s : HB04State) (name : String) : Option Axis :=
  (s.axis_list.find? (fun p => p.1 == name)).map (fun p => p.2)

/-- Field updates of hb04.axis_value: each coordinate is assigned only
when the corresponding argument is not None. -/
def updateAxis (a : Axis) (wc mc : Option ℚ) : Axis :=
  { a with
    work_coordinate := wc.getD a.work_coordinate,
    machine_coordinate := mc.getD a.machine_coordinate }

/-- Result of one facade call: the state afterwards, whether fatal was
entered (it logs and calls disconnect), whether its SystemExit escaped
the call, and whether forceDisplayUpdate was reached. -/
structure CallResult where
  state : HB04State
  fatalInvoked : Bool
  processExited : Bool
  displayRefreshed : Bool
  deriving DecidableEq, Repr

/-- hb04.axis_value.  A known name updates the provided coordinate
fields of that axis.  An unknown name calls fatal, which prints, runs
disconnect and raises SystemExit via sys.exit(1) — but the try/except
around the whole body is a bare except, which in Python also catches
SystemExit, so the exit is swallowed and the call falls through to
forceDisplayUpdate and returns normally. -/
def axis_value (s : HB04State) (axis_name : String) (wc mc : Option ℚ) : CallResult :=
  if (s.axis_list.find? (fun p => p.1 == axis_name)).isSome then
    { state :=
        { s with
          axis_list := s.axis_list.map
            (fun p => if p.1 == axis_name then (p.1, updateAxis p.2 wc mc) else p) }
      fatalInvoked := false
      processExited := false
      displayRefreshed := true }
  else
    { state := disconnect s
      fatalInvoked := true
      processExited := false
      displayRefreshed := true }

/-- Python exceptions that set_display_attribute can raise. -/
inductive PyExc
  | nameError
  | runtimeError
  deriving DecidableEq, Repr

/-- Result of hb04.set_display_attribute. -/
structure SetDisplayResult where
  state : HB04State
  exc : Option PyExc
  displayRefreshed : Bool
  deriving DecidableEq, Repr

/-- hb04.display_attributes: union of the keys of the units, icon and
multiplier tables, in that order. -/
def display_attributes : List String :=
  units_values.map (fun p => p.1) ++ icon_values.map (fun p => p.1) ++
    multiplier_values.map (fun p => p.1)

/-- hb04.set_display_attribute.  For a name present in no table the code
tries to print a warning, but the f-string of that print references the
undefined name value, so evaluating it raises NameError before anything
is printed or changed.  A known name updates the matching field, probed
in units, icon, multiplier order, then forces a display refresh; the
final else raises RuntimeError but is unreachable. -/
def set_display_attribute (s : HB04State) (attr0 : String) : SetDisplayResult :=
  if ¬ display_attributes.contains attr0 then
    ⟨s, some PyExc.nameError, false⟩
  else
    match lookupTable units_values attr0 with
    | some u => ⟨{ s with units := u }, none, true⟩
    | none =>
      match lookupTable icon_values attr0 with
      | some i => ⟨{ s with icon := i }, none, true⟩
      | none =>
        match lookupTable multiplier_values attr0 with
        | some m => ⟨{ s with multiplier_code := m }, none, true⟩
        | none => ⟨s, some PyExc.runtimeError, false⟩

/-! helper lemmas -/

theorem lor_high_bit {b : ℕ} (hb : b < 32768) : b ||| 32768 = b + 32768 := by
  have hb' : b < 2 ^ 15 := by simpa using hb
  have h := Nat.mul_add_lt_is_or hb' 1
  have h2 : b ||| 32768 = 2 ^ 15 * 1 ||| b := by
    rw [Nat.or_comm]; norm_num
  rw [h2, ← h]; omega

theorem truncQ_intCast (n : ℤ) : truncQ (n : ℚ) = n := by
  unfold truncQ
  split
  · rw [← Int.cast_neg, Int.floor_intCast, neg_neg]
  · exact Int.floor_intCast n

theorem join_chunks7 (l : List ℕ) (n : ℕ) :
    (((List.range n).map (fun k => (l.drop (7 * k)).take 7)).flatten) = l.take (7 * n) := by
  induction n with
  | zero => simp
  | succ m ih =>
    rw [List.range_succ, List.map_append, List.flatten_append, ih]
    rw [show 7 * (m + 1) = 7 * m + 7 by ring, List.take_add]
    simp

theorem pyRound_sub_le (q : ℚ) :
    -(1/2) ≤ (pyRound q : ℚ) - q ∧ (pyRound q : ℚ) - q ≤ 1/2 := by
  have h0 : (⌊q⌋ : ℚ) ≤ q := Int.floor_le q
  have h1 : q < ⌊q⌋ + 1 := Int.lt_floor_add_one q
  simp only [pyRound]
  split_ifs with ha hb hc <;> constructor <;> push_cast <;> linarith

theorem pyRound_nonneg {q : ℚ} (h : 0 ≤ q) : 0 ≤ pyRound q := by
  have h0 : 0 ≤ ⌊q⌋ := Int.floor_nonneg.mpr h
  simp only [pyRound]
  split_ifs <;> omega

theorem pyRound_le_of_le {q : ℚ} {k : ℤ} (h : q ≤ (k : ℚ)) : pyRound q ≤ k := by
  have hf : ⌊q⌋ ≤ k := by
    calc ⌊q⌋ ≤ ⌊(k : ℚ)⌋ := Int.floor_le_floor h
    _ = k := Int.floor_intCast k
  have hstep : (1/2 : ℚ) ≤ q - ⌊q⌋ → ⌊q⌋ + 1 ≤ k := by
    intro h2
    by_contra hcon
    have he : ⌊q⌋ = k := by omega
    rw [he] at h2
    linarith
  simp only [pyRound]
  split_ifs with ha hb hc
  · exact hf
  · exact hstep (le_of_lt hb)
  · exact hf
  · exact hstep (not_lt.mp ha)

theorem decode4 (ip f : ℕ) :
    decode_float_spec (toBytes2LE ip ++ toBytes2LE f) =
      if 32768 ≤ f then -((ip : ℚ) + ((f % 32768 : ℕ) : ℚ) / 10000)
      else (ip : ℚ) + ((f % 32768 : ℕ) : ℚ) / 10000 := by
  have h1 : ip % 256 + 256 * (ip / 256) = ip := Nat.mod_add_div ip 256
  have h2 : f % 256 + 256 * (f / 256) = f := Nat.mod_add_div f 256
  simp only [toBytes2LE, List.cons_append, List.nil_append, decode_float_spec, h1, h2]

theorem fract_sign_bit4 (ip f : ℕ) :
    fract_sign_bit (toBytes2LE ip ++ toBytes2LE f) =
      if 32768 ≤ f then true else false := by
  have h2 : f % 256 + 256 * (f / 256) = f := Nat.mod_add_div f 256
  simp only [toBytes2LE, List.cons_append, List.nil_append, fract_sign_bit, h2]

theorem find?_map_update (l : List (String × Axis)) (name : String) (f : Axis → Axis) :
    (l.map (fun p => if p.1 == name then (p.1, f p.2) else p)).find? (fun p => p.1 == name) =
      (l.find? (fun p => p.1 == name)).map (fun p => (p.1, f p.2)) := by
  induction l with
  | nil => rfl
  | cons hd tl ih =>
    obtain ⟨k, a0⟩ := hd
    rw [List.map_cons]
    by_cases hh : k = name
    · subst hh
      simp [List.find?_cons, -List.find?_map]
    · have hh' : (k == name) = false := beq_eq_false_iff_ne.mpr hh
      simp [List.find?_cons, hh', -List.find?_map]
      simpa using ih

theorem find?_map_update_ne (l : List (String × Axis)) (name other : String)
    (hne : other ≠ name) (f : Axis → Axis) :
    (l.map (fun p => if p.1 == name then (p.1, f p.2) else p)).find? (fun p => p.1 == other) =
      l.find? (fun p => p.1 == other) := by
  induction l with
  | nil => rfl
  | cons hd tl ih =>
    obtain ⟨k, a0⟩ := hd
    rw [List.map_cons]
    by_cases hn : k = name
    · subst hn
      have hno : (k == other) = false := beq_eq_false_iff_ne.mpr (fun hcon => hne hcon.symm)
      simp [List.find?_cons, hno, -List.find?_map]
      simpa using ih
    · have hn' : (k == name) = false := beq_eq_false_iff_ne.mpr hn
      simp [List.find?_cons, hn', -List.find?_map]
      cases hko : (k == other) with
      | false =>
        simp [hko]
        simpa using ih
      | true => simp [hko]

theorem axis_value_known (s : HB04State) (name : String) (a : Axis) (wc mc : Option ℚ)
    (hknown : lookupAxis s name = some a) :
    axis_value s name wc mc =
      { state :=
          { s with
            axis_list := s.axis_list.map
              (fun p => if p.1 == name then (p.1, updateAxis p.2 wc mc) else p) }
        fatalInvoked := false
        processExited := false
        displayRefreshed := true } := by
  unfold lookupAxis at hknown
  unfold axis_value
  cases hfind : s.axis_list.find? (fun p => p.1 == name) with
  | none => rw [hfind] at hknown; simp at hknown
  | some pr => simp [hfind]

/-! claim theorems -/

/-- C3: for every v with |v| ≤ 9999.9999, decoding the 4 bytes of
encode_float v — little-endian integer field, little-endian fractional
field with the high bit masked off, recombined as int + fract/10000 and
negated when the high bit is set — recovers v to within 0.0001, and the
fractional field's high (sign) bit is set iff v < 0. -/
theorem C3_encode_float_roundtrip (v : ℚ) (h : |v| ≤ 9999.9999) :
    |decode_float_spec (encode_float v) - v| ≤ 0.0001 ∧
    (fract_sign_bit (encode_float v) = true ↔ v < 0) := by
  have hq0 : 0 ≤ |v| * 10000 := mul_nonneg (abs_nonneg v) (by norm_num)
  have hqle : |v| * 10000 ≤ ((99999999 : ℤ) : ℚ) := by
    have h2 := mul_le_mul_of_nonneg_right h (by norm_num : (0:ℚ) ≤ 10000)
    calc |v| * 10000 ≤ 9999.9999 * 10000 := h2
    _ = ((99999999 : ℤ) : ℚ) := by norm_num
  have hr0 : 0 ≤ pyRound (|v| * 10000) := pyRound_nonneg hq0
  have hrle : pyRound (|v| * 10000) ≤ 99999999 := pyRound_le_of_le hqle
  set n : ℕ := (pyRound (|v| * 10000)).toNat with hn
  have hncast : ((n : ℤ)) = pyRound (|v| * 10000) := Int.toNat_of_nonneg hr0
  have hnle : n ≤ 99999999 := by omega
  have hround := pyRound_sub_le (|v| * 10000)
  have hcastQ : (n : ℚ) = ((pyRound (|v| * 10000) : ℤ) : ℚ) := by exact_mod_cast hncast
  have hub : (n : ℚ) - |v| * 10000 ≤ 1/2 := by rw [hcastQ]; exact hround.2
  have hlb : -(1/2 : ℚ) ≤ (n : ℚ) - |v| * 10000 := by rw [hcastQ]; exact hround.1
  have hint : n / 10000 % 65536 = n / 10000 := Nat.mod_eq_of_lt (by omega)
  have hfr65 : n % 10000 % 65536 = n % 10000 := Nat.mod_eq_of_lt (by omega)
  have hfrlt : n % 10000 < 32768 := by omega
  have he : encode_float v =
      toBytes2LE (n / 10000) ++
      toBytes2LE (if v < 0 then (n % 10000) ||| 32768 else n % 10000) := by
    simp only [encode_float, ← hn, hint, hfr65]
  have hmag : ((n / 10000 : ℕ) : ℚ) + ((n % 10000 : ℕ) : ℚ) / 10000 = (n : ℚ) / 10000 := by
    have hdm : 10000 * (n / 10000) + n % 10000 = n := Nat.div_add_mod n 10000
    have hdm2 : ((10000 * (n / 10000) + n % 10000 : ℕ) : ℚ) = (n : ℚ) := by
      exact_mod_cast congrArg (fun m : ℕ => (m : ℚ)) hdm
    push_cast at hdm2
    field_simp
    linarith
  have h0001 : (0.0001 : ℚ) = 1/10000 := by norm_num
  by_cases hv : v < 0
  · rw [if_pos hv] at he
    have hlor : (n % 10000) ||| 32768 = n % 10000 + 32768 := lor_high_bit hfrlt
    rw [hlor] at he
    have habs : |v| = -v := abs_of_neg hv
    rw [habs] at hub hlb
    constructor
    · rw [he, decode4, if_pos (show 32768 ≤ n % 10000 + 32768 by omega),
        show (n % 10000 + 32768) % 32768 = n % 10000 by omega, hmag, h0001, abs_le]
      constructor <;> linarith
    · rw [he, fract_sign_bit4, if_pos (show 32768 ≤ n % 10000 + 32768 by omega)]
      simp [hv]
  · rw [if_neg hv] at he
    have habs : |v| = v := abs_of_nonneg (not_lt.mp hv)
    rw [habs] at hub hlb
    constructor
    · rw [he, decode4, if_neg (show ¬ 32768 ≤ n % 10000 by omega),
        show (n % 10000) % 32768 = n % 10000 by omega, hmag, h0001, abs_le]
      constructor <;> linarith
    · rw [he, fract_sign_bit4, if_neg (show ¬ 32768 ≤ n % 10000 by omega)]
      simp [hv]

/-- C3 witness: applied at v = 3, whose magnitude is within range. -/
theorem C3_encode_float_roundtrip_witness :
    |(3 : ℚ)| ≤ 9999.9999 ∧
    (|decode_float_spec (encode_float 3) - 3| ≤ 0.0001 ∧
     (fract_sign_bit (encode_float 3) = true ↔ (3 : ℚ) < 0)) :=
  ⟨by rw [abs_of_nonneg (by norm_num : (0 : ℚ) ≤ 3)]; norm_num,
   C3_encode_float_roundtrip 3
     (by rw [abs_of_nonneg (by norm_num : (0 : ℚ) ≤ 3)]; norm_num)⟩

/-- C10: encode_float is total on every real input, out of range or not:
it returns exactly 4 bytes, each below 256, because both 16-bit fields are
reduced modulo 2^16; an out-of-range magnitude therefore wraps rather than
raising or widening, as shown by encode_float 70000 = encode_float 4464
(70000 mod 65536 = 4464). -/
theorem C10_encode_float_total_four_bytes :
    (∀ v : ℚ, (encode_float v).length = 4 ∧ ∀ b ∈ encode_float v, b < 256) ∧
    encode_float 70000 = encode_float 4464 := by
  constructor
  · intro v
    unfold encode_float toBytes2LE
    refine ⟨by simp, ?_⟩
    intro b hb
    set n := (pyRound (|v| * 10000)).toNat with hn
    have h1 : n / 10000 % 65536 < 65536 := Nat.mod_lt _ (by norm_num)
    have h0 : n % 10000 % 65536 < 32768 := by omega
    have h2 : (if v < 0 then n % 10000 % 65536 ||| 32768 else n % 10000 % 65536) < 65536 := by
      split
      · rw [lor_high_bit h0]; omega
      · omega
    simp only [List.mem_append, List.mem_cons, List.not_mem_nil, or_false] at hb
    rcases hb with (rfl | rfl) | (rfl | rfl) <;> omega
  · unfold encode_float pyRound toBytes2LE
    rw [abs_of_nonneg (by norm_num : (0 : ℚ) ≤ 70000),
      abs_of_nonneg (by norm_num : (0 : ℚ) ≤ 4464)]
    norm_num
    all_goals decide

/-- C4 (counterexample): the claim that encode_float saturates |v| at
9999.9999 fails at v = 10000: the code produces the wrapped encoding of
10000, not the encoding of the boundary value 9999.9999. -/
theorem C4_counterexample :
    encode_float 10000 = [16, 39, 0, 0] ∧
    encode_float 9999.9999 = [15, 39, 15, 39] ∧
    encode_float 10000 ≠ encode_float 9999.9999 := by
  have h1 : encode_float 10000 = [16, 39, 0, 0] := by
    unfold encode_float pyRound toBytes2LE
    rw [abs_of_nonneg (by norm_num : (0 : ℚ) ≤ 10000)]
    norm_num
    all_goals decide
  have h2 : encode_float 9999.9999 = [15, 39, 15, 39] := by
    unfold encode_float pyRound toBytes2LE
    rw [abs_of_nonneg (by norm_num : (0 : ℚ) ≤ 9999.9999)]
    norm_num
    all_goals decide
  exact ⟨h1, h2, by rw [h1, h2]; decide⟩

/-- C4 (amended): the saturation of |v| to 9999.9999 with the sign of v
preserved is implemented by limit_num on a float axis; encode_float never
invokes it (its integer field instead wraps modulo 2^16, see C10). -/
theorem C4_limit_num_float_saturates (x : ℚ) (h : 9999.9999 < |x|) :
    limit_num false x = if 0 < x then 9999.9999 else -9999.9999 := by
  unfold limit_num
  rcases lt_abs.mp h with h1 | h1
  · simp only [Bool.false_eq_true, if_false, reduceIte]
    rw [if_pos h1, if_pos (by linarith)]
  · simp only [Bool.false_eq_true, if_false, reduceIte]
    rw [if_neg (by linarith), if_pos (by linarith), if_neg (by linarith)]

/-- C4 witness: at x = 10000 the hypothesis holds and limit_num saturates
to 9999.9999. -/
theorem C4_limit_num_float_saturates_witness :
    9999.9999 < |(10000 : ℚ)| ∧
    limit_num false 10000 = if 0 < (10000 : ℚ) then 9999.9999 else -9999.9999 :=
  ⟨by rw [abs_of_nonneg (by norm_num : (0 : ℚ) ≤ 10000)]; norm_num,
   C4_limit_num_float_saturates 10000
     (by rw [abs_of_nonneg (by norm_num : (0 : ℚ) ≤ 10000)]; norm_num)⟩

/-- C5 (counterexample): the claim that encode_s16 encodes every value of
the clamp range [0, 65535] without error fails at v = 40000: the clamped
value is 40000, inside the claimed range, but to_bytes with signed=True
raises OverflowError (modelled as none). -/
theorem C5_counterexample :
    truncQ (limit_num true 40000) = 40000 ∧ encode_s16 true 40000 = none := by
  decide

/-- C5 (amended): on an integer axis the value is truncated to an integer
and clamped to [0, 65535] (negative values become 0); a clamped value of
at most 32767 is returned as its signed little-endian 2-byte encoding,
while a clamped value above 32767 makes the signed to_bytes conversion
raise OverflowError. -/
theorem C5_encode_s16_amended (v : ℚ) :
    truncQ (limit_num true v) = max 0 (min (truncQ v) 65535) ∧
    (truncQ (limit_num true v) ≤ 32767 →
      encode_s16 true v =
        some [(truncQ (limit_num true v)).toNat % 256,
              (truncQ (limit_num true v)).toNat / 256]) ∧
    (32767 < truncQ (limit_num true v) → encode_s16 true v = none) := by
  have hclamp : truncQ (limit_num true v) = max 0 (min (truncQ v) 65535) := by
    unfold limit_num
    simp only [if_true, reduceIte]
    set t : ℤ := truncQ v with ht
    by_cases h0 : t < 0
    · rw [if_pos h0, if_neg (by norm_num), if_neg (by norm_num)]
      rw [show ((0 : ℚ)) = ((0 : ℤ) : ℚ) by norm_num, truncQ_intCast]
      rw [min_eq_left (by omega), max_eq_left (by omega)]
    · rw [if_neg h0]
      by_cases h1 : (t : ℚ) > 65535
      · have h1' : t > 65535 := by exact_mod_cast h1
        rw [if_pos h1]
        rw [show ((65535 : ℚ)) = ((65535 : ℤ) : ℚ) by norm_num, truncQ_intCast]
        rw [min_eq_right (by omega), max_eq_right (by omega)]
      · have h1' : ¬ t > 65535 := by exact_mod_cast h1
        have h2 : ¬ ((t : ℚ) < -65535) := by
          rw [not_lt]
          exact_mod_cast (show (-65535 : ℤ) ≤ t by omega)
        rw [if_neg h1, if_neg h2]
        rw [truncQ_intCast]
        rw [min_eq_left (by omega), max_eq_right (by omega)]
  have hge : 0 ≤ truncQ (limit_num true v) := hclamp ▸ le_max_left 0 _
  have hub : truncQ (limit_num true v) ≤ 65535 :=
    hclamp ▸ max_le (by norm_num) (min_le_right _ _)
  refine ⟨hclamp, ?_, ?_⟩
  · intro hle
    unfold encode_s16 toBytes2LEsigned
    rw [if_neg (by omega)]
    have hmod : truncQ (limit_num true v) % 65536 = truncQ (limit_num true v) :=
      Int.emod_eq_of_lt hge (by omega)
    rw [hmod]
  · intro hgt
    unfold encode_s16 toBytes2LEsigned
    rw [if_pos (by omega)]

/-- C5 witness: at v = 5 the clamped value is 5 ≤ 32767 and encode_s16
returns the 2-byte little-endian encoding of 5. -/
theorem C5_encode_s16_amended_witness :
    truncQ (limit_num true (5 : ℚ)) ≤ 32767 ∧
    encode_s16 true 5 =
      some [(truncQ (limit_num true (5 : ℚ))).toNat % 256,
            (truncQ (limit_num true (5 : ℚ))).toNat / 256] :=
  ⟨by decide, (C5_encode_s16_amended 5).2.1 (by decide)⟩

/-- C6: sendData on a 42-byte frame yields exactly 6 packets of 8 bytes,
each led by the byte 0x06, and concatenating bytes 1 through 7 of the
packets in order reconstructs the original frame. -/
theorem C6_sendData_roundtrip (data : List ℕ) (h : data.length = 42) :
    (sendData data).length = 6 ∧
    (∀ p ∈ sendData data, p.length = 8 ∧ p.head? = some 6) ∧
    ((sendData data).map List.tail).flatten = data := by
  have hpad : data ++ List.replicate (42 - data.length) 0 = data := by
    rw [h]; simp
  refine ⟨?_, ?_, ?_⟩
  · unfold sendData
    rw [hpad]
    simp
  · intro p hp
    unfold sendData at hp
    rw [hpad] at hp
    simp only [List.mem_map, List.mem_range] at hp
    obtain ⟨k, hk, rfl⟩ := hp
    refine ⟨?_, rfl⟩
    simp only [List.length_cons, List.length_take, List.length_drop, h]
    omega
  · unfold sendData
    rw [hpad]
    rw [List.map_map]
    have : (List.tail ∘ fun k => 6 :: ((data.drop (7 * k)).take 7)) =
        fun k => (data.drop (7 * k)).take 7 := by
      funext k; rfl
    rw [this, join_chunks7]
    rw [show 7 * 6 = 42 by norm_num, ← h, List.take_length]

/-- C6 witness: applied at the concrete 42-byte frame 0,1,...,41. -/
theorem C6_sendData_roundtrip_witness :
    (List.range 42).length = 42 ∧
    ((sendData (List.range 42)).length = 6 ∧
     (∀ p ∈ sendData (List.range 42), p.length = 8 ∧ p.head? = some 6) ∧
     ((sendData (List.range 42)).map List.tail).flatten = List.range 42) :=
  ⟨by decide, C6_sendData_roundtrip (List.range 42) (by decide)⟩

/-- C1 (counterexample): a 6-byte report whose axis-switch byte 0x01 has
no entry in the axis table is not silently dropped: the KeyError escapes
newUSBEvent and the receive loop reacts by calling fatal, contradicting
the claim that such a failure never reaches the fatal path. -/
theorem C1_counterexample :
    code2Axis 1 = none ∧
    receiveStep none [4, 0, 0, 1, 0, 0] = ReceiveOutcome.fatalCalled := by
  decide

/-- C1 (amended): on a 6-byte report with a mapped axis-switch byte, an
unmapped button1 or button2 byte makes the KeyError die in the inner
bare except — the event is dropped silently, the handler is never
invoked, nothing propagates.  A report of length other than 6 (failed
assert) or with an unmapped axis-switch byte, however, raises out of
newUSBEvent, and the receive loop turns that into a fatal call. -/
theorem C1_amended_decode_failures :
    (∀ (raises : USBEvent → Bool) (data : List ℕ) (ax : String),
      data.length = 6 →
      code2Axis (data.getD 3 0) = some ax →
      (code2Button (data.getD 1 0) = none ∨ code2Button (data.getD 2 0) = none) →
      receiveStep (some raises) data = ReceiveOutcome.continued ax HandlerStep.notInvoked) ∧
    (∀ (handler : Option (USBEvent → Bool)) (data : List ℕ),
      data.length ≠ 6 ∨ code2Axis (data.getD 3 0) = none →
      receiveStep handler data = ReceiveOutcome.fatalCalled) := by
  constructor
  · intro raises data ax h6 hax hb
    have hnew : newUSBEvent (some raises) data = Except.ok (ax, HandlerStep.notInvoked) := by
      unfold newUSBEvent
      rw [if_neg (by omega), hax]
      rcases hb with hb | hb
      · cases hb2 : code2Button (data.getD 2 0) <;> rw [hb]
      · cases hb1 : code2Button (data.getD 1 0) <;> rw [hb]
    unfold receiveStep
    rw [hnew]
  · intro handler data h
    by_cases h6 : data.length = 6
    · rcases h with h | h
      · exact absurd h6 h
      · have hnew : newUSBEvent handler data = Except.error "KeyError" := by
          unfold newUSBEvent
          rw [if_neg (by omega), h]
        unfold receiveStep
        rw [hnew]
    · have hnew : newUSBEvent handler data = Except.error "AssertionError" := by
        unfold newUSBEvent
        rw [if_pos h6]
      unfold receiveStep
      rw [hnew]

/-- C1 witness: a report with unmapped button1 byte 0xFF is dropped with
the handler not invoked; a 1-byte report reaches the fatal path. -/
theorem C1_amended_decode_failures_witness :
    receiveStep (some (fun _ => false)) [4, 255, 0, 17, 0, 0] =
      ReceiveOutcome.continued "x" HandlerStep.notInvoked ∧
    receiveStep none [4] = ReceiveOutcome.fatalCalled :=
  ⟨C1_amended_decode_failures.1 (fun _ => false) [4, 255, 0, 17, 0, 0] "x"
      (by decide) (by decide) (Or.inl (by decide)),
   C1_amended_decode_failures.2 none [4] (Or.inl (by decide))⟩

/-- C2 (counterexample): on the successfully decoded report
[4, 0, 0, 0x11, 0, 0] a handler that raises is invoked, its exception is
swallowed by the inner bare except of newUSBEvent, and the receive loop
continues — the fatal path is not taken, contradicting the claim that a
handler exception is fatal and never silently swallowed. -/
theorem C2_counterexample :
    receiveStep (some (fun _ => true)) [4, 0, 0, 17, 0, 0] =
      ReceiveOutcome.continued "x" (HandlerStep.invokedRaised ⟨"", "", "x", 0⟩) ∧
    ReceiveOutcome.continued "x" (HandlerStep.invokedRaised ⟨"", "", "x", 0⟩) ≠
      ReceiveOutcome.fatalCalled := by
  decide

/-- C2 (amended): for every successfully decoded 6-byte report and every
registered handler that raises on the decoded event, the handler is
invoked and its exception is caught by the inner bare except and
silently swallowed: the receive loop continues and the fatal path is
never taken. -/
theorem C2_amended_handler_exception_swallowed (raises : USBEvent → Bool)
    (data : List ℕ) (ax b1 b2 : String)
    (h6 : data.length = 6)
    (hax : code2Axis (data.getD 3 0) = some ax)
    (hb1 : code2Button (data.getD 1 0) = some b1)
    (hb2 : code2Button (data.getD 2 0) = some b2)
    (hr : raises ⟨b1, b2, ax, sign_extend (data.getD 4 0)⟩ = true) :
    receiveStep (some raises) data =
      ReceiveOutcome.continued ax
        (HandlerStep.invokedRaised ⟨b1, b2, ax, sign_extend (data.getD 4 0)⟩) := by
  have hnew : newUSBEvent (some raises) data =
      Except.ok (ax, HandlerStep.invokedRaised ⟨b1, b2, ax, sign_extend (data.getD 4 0)⟩) := by
    unfold newUSBEvent
    rw [if_neg (by omega), hax, hb1, hb2]
    simp only [hr, reduceIte]
  unfold receiveStep
  rw [hnew]

/-- C2 witness: a raising handler on report [4, 23, 22, 18, 129, 23]
(buttons reset/stop, axis y, increment -127) is invoked and swallowed. -/
theorem C2_amended_handler_exception_swallowed_witness :
    receiveStep (some (fun _ => true)) [4, 23, 22, 18, 129, 23] =
      ReceiveOutcome.continued "y"
        (HandlerStep.invokedRaised
          ⟨"reset", "stop", "y", sign_extend ([4, 23, 22, 18, 129, 23].getD 4 0)⟩) :=
  C2_amended_handler_exception_swallowed (fun _ => true) [4, 23, 22, 18, 129, 23]
    "y" "reset" "stop" (by decide) (by decide) (by decide) (by decide) (by decide)

/-- C7: axis_value on the unknown axis name q does call fatal — which
logs and disconnects — but the SystemExit raised by sys.exit(1) inside
fatal is caught by the bare except wrapping the body of axis_value, so
the process does not terminate: the call falls through to
forceDisplayUpdate and returns normally. -/
theorem C7_axis_value_unknown_fatal_swallowed :
    (axis_value resetState "q" none none).fatalInvoked = true ∧
    (axis_value resetState "q" none none).processExited = false ∧
    (axis_value resetState "q" none none).state.running = false ∧
    (axis_value resetState "q" none none).state.disconnecting = true ∧
    (axis_value resetState "q" none none).displayRefreshed = true := by
  decide

/-- C8: set_display_attribute on the name bogus, absent from all three
tables, raises NameError while evaluating the warning f-string (which
references the undefined name value): it does not return normally, no
warning is printed, and the units/icon/multiplier fields are left
unchanged. -/
theorem C8_set_display_attribute_unknown_raises :
    display_attributes.contains "bogus" = false ∧
    set_display_attribute resetState "bogus" =
      ⟨resetState, some PyExc.nameError, false⟩ := by
  decide

/-- C9: axis_value on a known axis name with exactly one coordinate
argument supplied updates only that coordinate of that axis, leaves the
other coordinate, every other axis and the display attributes untouched,
and reaches the synchronous forceDisplayUpdate call. -/
theorem C9_axis_value_updates_only_given_field (s : HB04State) (name : String)
    (a : Axis) (w m : ℚ) (hknown : lookupAxis s name = some a) :
    (lookupAxis (axis_value s name (some w) none).state name =
        some { a with work_coordinate := w } ∧
      (∀ other, other ≠ name →
        lookupAxis (axis_value s name (some w) none).state other = lookupAxis s other) ∧
      (axis_value s name (some w) none).state.icon = s.icon ∧
      (axis_value s name (some w) none).state.units = s.units ∧
      (axis_value s name (some w) none).state.multiplier_code = s.multiplier_code ∧
      (axis_value s name (some w) none).displayRefreshed = true) ∧
    (lookupAxis (axis_value s name none (some m)).state name =
        some { a with machine_coordinate := m } ∧
      (∀ other, other ≠ name →
        lookupAxis (axis_value s name none (some m)).state other = lookupAxis s other) ∧
      (axis_value s name none (some m)).displayRefreshed = true) := by
  obtain ⟨pr, hfind, hpr2⟩ :
      ∃ pr, s.axis_list.find? (fun p => p.1 == name) = some pr ∧ pr.2 = a := by
    unfold lookupAxis at hknown
    cases hf : s.axis_list.find? (fun p => p.1 == name) with
    | none => rw [hf] at hknown; simp at hknown
    | some pr =>
      rw [hf] at hknown
      simp at hknown
      exact ⟨pr, rfl, hknown⟩
  have hav1 := axis_value_known s name a (some w) none hknown
  have hav2 := axis_value_known s name a none (some m) hknown
  rw [hav1, hav2]
  refine ⟨⟨?_, ?_, rfl, rfl, rfl, rfl⟩, ?_, ?_, rfl⟩
  · simp only [lookupAxis]
    rw [find?_map_update s.axis_list name (fun a0 => updateAxis a0 (some w) none)]
    simp [hfind, hpr2, updateAxis]
  · intro other hother
    simp only [lookupAxis]
    rw [find?_map_update_ne s.axis_list name other hother
      (fun a0 => updateAxis a0 (some w) none)]
  · simp only [lookupAxis]
    rw [find?_map_update s.axis_list name (fun a0 => updateAxis a0 none (some m))]
    simp [hfind, hpr2, updateAxis]
  · intro other hother
    simp only [lookupAxis]
    rw [find?_map_update_ne s.axis_list name other hother
      (fun a0 => updateAxis a0 none (some m))]

/-- C9 witness: applied at the reset state and axis x, updating the work
coordinate to 1 and, in a second call, the machine coordinate to 2; axis
y is checked to be untouched. -/
theorem C9_axis_value_updates_only_given_field_witness :
    lookupAxis resetState "x" = some (Axis.make "x" false) ∧
    lookupAxis (axis_value resetState "x" (some 1) none).state "x" =
      some { Axis.make "x" false with work_coordinate := 1 } ∧
    lookupAxis (axis_value resetState "x" (some 1) none).state "y" = lookupAxis resetState "y" ∧
    (axis_value resetState "x" (some 1) none).displayRefreshed = true ∧
    lookupAxis (axis_value resetState "x" none (some 2)).state "x" =
      some { Axis.make "x" false with machine_coordinate := 2 } := by
  have h := C9_axis_value_updates_only_given_field resetState "x" (Axis.make "x" false)
    1 2 (by decide)
  exact ⟨by decide, h.1.1, h.1.2.1 "y" (by decide), h.1.2.2.2.2.2, h.2.1⟩

end HB04
